import Mathlib

/-!
Shallow embedding of the ti-kv-api blob service (src/main.go together with
src/rawkv_interface.go) and proofs about it.  Keys and values are byte
strings; the raw TiKV client behind RawKVClientInterface is modelled as a
key-value store together with one fault flag per operation kind (a raised
flag models the external storage call returning an error) and a trace of
the storage calls issued, so that statements about "no storage call is
made" are about the trace.  Handlers are direct transcriptions of the Go
functions of the same names.
-/

namespace TiKvApi

/-- Byte-string keys, modelled as lists of byte values. -/
abbrev Key := List Nat

/-- Blob values; the Go code compares them with string equality. -/
abbrev Blob := String

/-- Strict lexicographic byte order on keys: the order in which a raw
range scan returns keys. -/
def lexLt : Key → Key → Bool
  | [], [] => false
  | [], _ :: _ => true
  | _ :: _, [] => false
  | a :: as, b :: bs => if a < b then true else if b < a then false else lexLt as bs

/-- Reflexive lexicographic byte order on keys. -/
def lexLe : Key → Key → Bool
  | [], _ => true
  | _ :: _, [] => false
  | a :: as, b :: bs => if a < b then true else if b < a then false else lexLe as bs

/-- Insert a key into a lexicographically sorted list of keys. -/
def insertKey (k : Key) : List Key → List Key
  | [] => [k]
  | x :: xs => if lexLe k x then k :: x :: xs else x :: insertKey k xs

/-- Insertion sort of keys by the lexicographic byte order. -/
def sortKeys : List Key → List Key
  | [] => []
  | k :: ks => insertKey k (sortKeys ks)

/-- Persisted state of the raw key-value store: an association list of
key-value entries; well-formed stores have pairwise-distinct keys. -/
structure Store where
  entries : List (Key × Blob)
deriving DecidableEq

/-- Keys currently present in the store. -/
def Store.keys (s : Store) : List Key := s.entries.map (fun e => e.1)

/-- Read the value stored under a key. -/
def Store.get (s : Store) (k : Key) : Option Blob :=
  (s.entries.find? (fun e => e.1 == k)).map (fun e => e.2)

/-- Write a value under a key, overwriting any entry already there. -/
def Store.put (s : Store) (k : Key) (v : Blob) : Store :=
  ⟨(k, v) :: s.entries.filter (fun e => !(e.1 == k))⟩

/-- Remove the entry stored under a key. -/
def Store.del (s : Store) (k : Key) : Store :=
  ⟨s.entries.filter (fun e => !(e.1 == k))⟩

/-- Range scan: the keys in the half-open interval from start (inclusive) to
stop (exclusive) in ascending lexicographic byte order, at most limit many. -/
def Store.scan (s : Store) (start stop : Key) (limit : Nat) : List Key :=
  ((sortKeys s.keys).filter (fun k => lexLe start k && lexLt k stop)).take limit

/-- Byte contents of the scan lower bound "blob:". -/
def blobStartKey : Key := [98, 108, 111, 98, 58]

/-- Byte contents of the exclusive scan upper bound "blob:~". -/
def blobEndKey : Key := [98, 108, 111, 98, 58, 126]

/-- Little-endian decimal digits of a natural number, with explicit fuel;
the fuel used below is always at least the number being rendered. -/
def decDigitsAux : Nat → Nat → List Nat
  | _, 0 => []
  | 0, _ + 1 => []
  | f + 1, n + 1 => (n + 1) % 10 :: decDigitsAux f ((n + 1) / 10)

/-- Little-endian decimal digits of a natural number (empty for zero). -/
def digitsLE (n : Nat) : List Nat := decDigitsAux n n

/-- Decimal digit sequence of a natural number, most significant first, as
produced by the %d format verb. -/
def decimalDigits (n : Nat) : List Nat :=
  if n = 0 then [0] else (digitsLE n).reverse

/-- Storage key synthesized by the create operation from the clock reading
t, as in fmt.Sprintf("blob:%d", time.Now().UnixNano()): the bytes of
"blob:" followed by the ASCII decimal digits of t. -/
def makeKey (t : Nat) : Key :=
  blobStartKey ++ (decimalDigits t).map (fun d => d + 48)

/-- Tags for the storage calls a handler can issue. -/
inductive SCall where
  | scan
  | get
  | put
  | del
deriving DecidableEq

/-- JSON or plain-text response bodies written by the handlers. -/
inductive RespBody where
  | jsonBlob (blob : String)
  | jsonMessage (message : String)
  | jsonCount (count : Int)
  | jsonBlobs (blobs : List String)
  | text (message : String)
deriving DecidableEq

/-- HTTP response: status code and body. -/
structure Response where
  status : Nat
  body : RespBody
deriving DecidableEq

/-- Model of a rawkv client as seen through RawKVClientInterface: the store
contents, one fault flag per operation kind (a raised flag makes that
external call return an error), and the trace of storage calls issued. -/
structure KV where
  store : Store
  scanErr : Bool
  getErr : Bool
  putErr : Bool
  delErr : Bool
  calls : List SCall
deriving DecidableEq

/-- Append a storage call to the client trace. -/
def KV.logCall (c : KV) (op : SCall) : KV :=
  { c with calls := c.calls ++ [op] }

/-- Value read for a key: the stored value, or the empty string when the
key is absent (a raw Get of a missing key yields an empty value, no error). -/
def KV.valOf (c : KV) (k : Key) : Blob :=
  match c.store.get k with
  | some v => v
  | none => ""

/-- Client Scan call: fails when the scan fault flag is raised, otherwise
returns the keys of the requested range. -/
def KV.scanOp (c : KV) (start stop : Key) (limit : Nat) :
    Except Unit (List Key) × KV :=
  ((if c.scanErr then .error () else .ok (c.store.scan start stop limit)),
    c.logCall .scan)

/-- Client Get call: fails when the get fault flag is raised, otherwise
returns the value read for the key. -/
def KV.getOp (c : KV) (k : Key) : Except Unit Blob × KV :=
  ((if c.getErr then .error () else .ok (c.valOf k)), c.logCall .get)

/-- Client Put call: fails when the put fault flag is raised, otherwise
writes the value under the key. -/
def KV.putOp (c : KV) (k : Key) (v : Blob) : Except Unit Unit × KV :=
  if c.putErr then (.error (), c.logCall .put)
  else (.ok (), { c with store := c.store.put k v, calls := c.calls ++ [SCall.put] })

/-- Client Delete call: fails when the delete fault flag is raised,
otherwise removes the key. -/
def KV.delOp (c : KV) (k : Key) : Except Unit Unit × KV :=
  if c.delErr then (.error (), c.logCall .del)
  else (.ok (), { c with store := c.store.del k, calls := c.calls ++ [SCall.del] })

/-- Duplicate-check loop of handlePOST: fetch each scanned key in order;
a failed fetch ends the request with 500, a value equal to the submitted
blob ends it with 409, otherwise the loop falls through. -/
def postDupLoop (blob : Blob) : KV → List Key → Option Response × KV
  | c, [] => (none, c)
  | c, k :: ks =>
    let r := c.getOp k
    match r.1 with
    | .error _ => (some ⟨500, .text "Failed to retrieve blob"⟩, r.2)
    | .ok v =>
      if v = blob then (some ⟨409, .text "Blob already exists"⟩, r.2)
      else postDupLoop blob r.2 ks

/-- Find-by-value loop shared by handleDELETE and handlePUT: fetch each
scanned key in order; a failed fetch ends the request with 500, and the
first key whose value equals the target is selected. -/
def findKeyLoop (target : Blob) : KV → List Key → Except Response (Option Key) × KV
  | c, [] => (.ok none, c)
  | c, k :: ks =>
    let r := c.getOp k
    match r.1 with
    | .error _ => (.error ⟨500, .text "Failed to retrieve blob"⟩, r.2)
    | .ok v =>
      if v = target then (.ok (some k), r.2)
      else findKeyLoop target r.2 ks

/-- Value-collection loop of handleGETAll: fetch every scanned key in
order; a failed fetch ends the request with 500. -/
def getAllLoop : KV → List Key → Except Response (List Blob) × KV
  | c, [] => (.ok [], c)
  | c, k :: ks =>
    let r := c.getOp k
    match r.1 with
    | .error _ => (.error ⟨500, .text "Failed to retrieve blob"⟩, r.2)
    | .ok v =>
      let rest := getAllLoop r.2 ks
      (rest.1.map (fun vs => v :: vs), rest.2)

/-- Transcription of handlePOST (src/main.go lines 203 to 250); now is the
clock reading time.Now().UnixNano() used to synthesize the key. -/
def handlePOST (c : KV) (blob : String) (now : Nat) : Response × KV :=
  if blob = "" then (⟨400, .text "No blob provided"⟩, c)
  else
    let s := c.scanOp blobStartKey blobEndKey 100
    match s.1 with
    | .error _ => (⟨500, .text "Failed to retrieve blobs"⟩, s.2)
    | .ok keys =>
      let d := postDupLoop blob s.2 keys
      match d.1 with
      | some resp => (resp, d.2)
      | none =>
        let key := makeKey now
        let p := d.2.putOp key blob
        match p.1 with
        | .error _ => (⟨500, .text "Failed to save blob"⟩, p.2)
        | .ok _ => (⟨200, .jsonBlob blob⟩, p.2)

/-- Transcription of handleDELETE (src/main.go lines 252 to 303). -/
def handleDELETE (c : KV) (blob : String) : Response × KV :=
  if blob = "" then (⟨400, .text "No blob provided"⟩, c)
  else
    let s := c.scanOp blobStartKey blobEndKey 100
    match s.1 with
    | .error _ => (⟨500, .text "Failed to retrieve blobs"⟩, s.2)
    | .ok keys =>
      let f := findKeyLoop blob s.2 keys
      match f.1 with
      | .error resp => (resp, f.2)
      | .ok none => (⟨404, .text "Blob not found"⟩, f.2)
      | .ok (some keyToDelete) =>
        let d := f.2.delOp keyToDelete
        match d.1 with
        | .error _ => (⟨500, .text "Failed to delete blob"⟩, d.2)
        | .ok _ => (⟨200, .jsonMessage "Blob deleted successfully"⟩, d.2)

/-- Transcription of handlePUT (src/main.go lines 305 to 362). -/
def handlePUT (c : KV) (oldBlob newBlob : String) : Response × KV :=
  if oldBlob = "" then (⟨400, .text "No old blob provided"⟩, c)
  else if newBlob = "" then (⟨400, .text "No new blob provided"⟩, c)
  else
    let s := c.scanOp blobStartKey blobEndKey 100
    match s.1 with
    | .error _ => (⟨500, .text "Failed to retrieve blobs"⟩, s.2)
    | .ok keys =>
      let f := findKeyLoop oldBlob s.2 keys
      match f.1 with
      | .error resp => (resp, f.2)
      | .ok none => (⟨404, .text "Blob not found"⟩, f.2)
      | .ok (some keyToUpdate) =>
        let p := f.2.putOp keyToUpdate newBlob
        match p.1 with
        | .error _ => (⟨500, .text "Failed to update blob"⟩, p.2)
        | .ok _ => (⟨200, .jsonBlob newBlob⟩, p.2)

/-- Transcription of countBlobs (src/main.go lines 452 to 464): minus one
for a nil client or a failed scan, otherwise the number of scanned keys. -/
def countBlobs : Option KV → Int × Option KV
  | none => (-1, none)
  | some c =>
    let s := c.scanOp blobStartKey blobEndKey 100
    match s.1 with
    | .error _ => (-1, some s.2)
    | .ok keys => ((keys.length : Int), some s.2)

/-- Transcription of handleGETCount (src/main.go lines 364 to 375): always
writes status 200 with the JSON count, whatever countBlobs returned. -/
def handleGETCount (c : KV) : Response × KV :=
  let r := countBlobs (some c)
  (⟨200, .jsonCount r.1⟩, r.2.getD c)

/-- Transcription of handleGETAll (src/main.go lines 377 to 412). -/
def handleGETAll (c : KV) : Response × KV :=
  let s := c.scanOp blobStartKey blobEndKey 100
  match s.1 with
  | .error _ => (⟨500, .text "Failed to retrieve blobs"⟩, s.2)
  | .ok keys =>
    if keys.length = 0 then (⟨404, .text "No blobs found"⟩, s.2)
    else
      let b := getAllLoop s.2 keys
      match b.1 with
      | .error resp => (resp, b.2)
      | .ok blobs => (⟨200, .jsonBlobs blobs⟩, b.2)

/-- Transcription of handleGETRandom (src/main.go lines 414 to 449).  The
process-local random source seeded from the clock is modelled by the
parameter rnd; randGen.Intn(len(keys)) yields a value in the half-open
range from 0 to len(keys), modelled as rnd % keys.length. -/
def handleGETRandom (c : KV) (rnd : Nat) : Response × KV :=
  let s := c.scanOp blobStartKey blobEndKey 100
  match s.1 with
  | .error _ => (⟨500, .text "Failed to retrieve blobs"⟩, s.2)
  | .ok keys =>
    if h : keys.length = 0 then (⟨404, .text "No blobs found"⟩, s.2)
    else
      let randomIndex := rnd % keys.length
      let randomKey := keys.get ⟨randomIndex, Nat.mod_lt rnd (Nat.pos_of_ne_zero h)⟩
      let g := s.2.getOp randomKey
      match g.1 with
      | .error _ => (⟨500, .text "Failed to retrieve blob"⟩, g.2)
      | .ok v => (⟨200, .jsonBlob v⟩, g.2)

/-- Transcription of handleGET (src/main.go lines 191 to 201): routing on
the action query parameter. -/
def handleGET (c : KV) (action : String) (rnd : Nat) : Response × KV :=
  if action = "count" then handleGETCount c
  else if action = "all" then handleGETAll c
  else handleGETRandom c rnd

/-- Configured client pool size (src/main.go line 68). -/
def ClientPoolSize : Nat := 10

/-- The client-pool channel, reduced to the counts that matter: its
capacity cap(clientPool) and the number of handles currently in it
len(clientPool).  Handles are interchangeable, so they are counted rather
than named. -/
structure Pool where
  capacity : Nat
  available : Nat
deriving DecidableEq

/-- State shared by all request handlings and monitor ticks: the pool
counts and the storage state seen through any pooled client. -/
structure SystemState where
  pool : Pool
  kv : KV
deriving DecidableEq

/-- Transcription of getClientFromPool (src/main.go lines 122 to 128): a
non-blocking check that hands out a client only when the channel is
non-empty and has positive capacity. -/
def getClientFromPool (p : Pool) : Option Unit × Pool :=
  if 0 < p.available && 0 < p.capacity then
    (some (), { p with available := p.available - 1 })
  else (none, p)

/-- An HTTP request as consumed by handleRequest: the method string and the
query parameters the handlers read, plus the clock and random-source
readings taken while handling it. -/
structure Request where
  method : String
  action : String
  blob : String
  oldBlob : String
  newBlob : String
  rnd : Nat
  now : Nat
deriving DecidableEq

/-- Transcription of handleRequest (src/main.go lines 161 to 188): acquire
a client with the non-blocking pool check, answer 500 when none is
available, otherwise dispatch on the method and, once the handler
completes, run the deferred release of the client back into the pool.  The
cap(clientPool) == 0 disjunct of the Go guard cannot fire once a client
was obtained, since getClientFromPool only yields one when the capacity is
positive. -/
def handleRequest (st : SystemState) (r : Request) : Response × SystemState :=
  let a := getClientFromPool st.pool
  match a.1 with
  | none => (⟨500, .text "Internal server error"⟩, { st with pool := a.2 })
  | some _ =>
    let h :=
      if r.method = "GET" then handleGET st.kv r.action r.rnd
      else if r.method = "POST" then handlePOST st.kv r.blob r.now
      else if r.method = "DELETE" then handleDELETE st.kv r.blob
      else if r.method = "PUT" then handlePUT st.kv r.oldBlob r.newBlob
      else (⟨405, .text "Invalid request method"⟩, st.kv)
    (h.1, { pool := { a.2 with available := a.2.available + 1 }, kv := h.2 })

/-- Transcription of one tick of the monitoring goroutine set up by
setupMonitoring (src/main.go lines 145 to 157): after the sleep it
evaluates countBlobs(<-clientPool), receiving a client from the pool and
never sending it back.  A tick only completes when the pool is non-empty;
with an empty pool the receive blocks and no completed tick occurs, which
the model renders as the identity. -/
def monitorTick (st : SystemState) : SystemState :=
  if 0 < st.pool.available then
    let r := countBlobs (some st.kv)
    { pool := { st.pool with available := st.pool.available - 1 },
      kv := (r.2).getD st.kv }
  else st

/-- Transcription of setupClientPool (src/main.go lines 102 to 120): a
channel of capacity ClientPoolSize filled with ClientPoolSize clients, all
sharing the one storage state. -/
def setupClientPool (kv : KV) : SystemState :=
  { pool := { capacity := ClientPoolSize, available := ClientPoolSize }, kv := kv }

/-- Byte contents of the key "blob:1". -/
def key1 : Key := [98, 108, 111, 98, 58, 49]

/-- Byte contents of the key "blob:2". -/
def key2 : Key := [98, 108, 111, 98, 58, 50]

/-- Fault-free client over the empty store. -/
def kvEmpty : KV :=
  { store := ⟨[]⟩, scanErr := false, getErr := false, putErr := false,
    delErr := false, calls := [] }

/-- Fault-free client over a store holding blob:1 with value a and blob:2
with value b. -/
def kvTwo : KV :=
  { store := ⟨[(key1, "a"), (key2, "b")]⟩, scanErr := false, getErr := false,
    putErr := false, delErr := false, calls := [] }

/-- Client over the empty store whose Scan calls fail. -/
def kvScanFail : KV :=
  { store := ⟨[]⟩, scanErr := true, getErr := false, putErr := false,
    delErr := false, calls := [] }

/-- Blob Locator contract as the spec words it (section 4.2): scan the
keyspace from blob: to the exclusive upper bound blob:~ with limit 100,
fetch each returned key's value and compare byte-for-byte against the
target, and return the first key whose value equals the target, in scan
order; none when no key within the scanned window matches. -/
def findKeyByValueSpec (c : KV) (target : Blob) : Option Key :=
  (c.store.scan blobStartKey blobEndKey 100).find? (fun k => c.valOf k == target)

/-- Little-endian decimal digit sequences evaluated back to a number. -/
def ofDigitsLE : List Nat → Nat
  | [] => 0
  | d :: ds => d + 10 * ofDigitsLE ds

/-- A GET request with no action parameter. -/
def reqGET : Request :=
  { method := "GET", action := "", blob := "", oldBlob := "", newBlob := "",
    rnd := 0, now := 0 }

/-- A request using the unsupported method PATCH. -/
def reqPatch : Request :=
  { method := "PATCH", action := "", blob := "", oldBlob := "", newBlob := "",
    rnd := 0, now := 0 }

/-- System state reached from the freshly set-up pool after ten completed
background-monitor ticks. -/
def drainedState : SystemState :=
  monitorTick (monitorTick (monitorTick (monitorTick (monitorTick
    (monitorTick (monitorTick (monitorTick (monitorTick (monitorTick
      (setupClientPool kvEmpty))))))))))

theorem mem_insertKey {k a : Key} {l : List Key} (h : k ∈ insertKey a l) :
    k = a ∨ k ∈ l := by
  induction l with
  | nil => simp only [insertKey, List.mem_singleton] at h; exact Or.inl h
  | cons x xs ih =>
    unfold insertKey at h
    cases hle : lexLe a x with
    | true =>
      rw [hle] at h
      simp only [if_true] at h
      rcases List.mem_cons.mp h with h | h
      · exact Or.inl h
      · exact Or.inr h
    | false =>
      rw [hle] at h
      simp only [Bool.false_eq_true, if_false] at h
      rcases List.mem_cons.mp h with h | h
      · exact Or.inr (h ▸ List.mem_cons_self x xs)
      · rcases ih h with h' | h'
        · exact Or.inl h'
        · exact Or.inr (List.mem_cons_of_mem x h')

theorem mem_sortKeys {k : Key} {l : List Key} (h : k ∈ sortKeys l) : k ∈ l := by
  induction l with
  | nil => simp [sortKeys] at h
  | cons x xs ih =>
    unfold sortKeys at h
    rcases mem_insertKey h with h' | h'
    · exact h' ▸ List.mem_cons_self x xs
    · exact List.mem_cons_of_mem x (ih h')

theorem scan_subset_keys {s : Store} {a b : Key} {n : Nat} {k : Key}
    (h : k ∈ s.scan a b n) : k ∈ s.keys := by
  unfold Store.scan at h
  exact mem_sortKeys (List.mem_of_mem_filter (List.take_subset _ _ h))

theorem find?_entry_filter_ne (l : List (Key × Blob)) {k k' : Key} (h : k' ≠ k) :
    (l.filter (fun e => !(e.1 == k))).find? (fun e => e.1 == k') =
      l.find? (fun e => e.1 == k') := by
  induction l with
  | nil => rfl
  | cons e es ih =>
    by_cases hk : e.1 = k
    · have h1 : (e.1 == k) = true := beq_iff_eq.mpr hk
      have h2 : (e.1 == k') = false := by
        rw [beq_eq_false_iff_ne]
        exact fun heq => h (heq ▸ hk ▸ rfl)
      rw [List.filter_cons_of_neg (by simp [h1]),
        List.find?_cons_of_neg _ (by simp [h2]), ih]
    · have h1 : (e.1 == k) = false := beq_eq_false_iff_ne.mpr hk
      rw [List.filter_cons_of_pos (by simp [h1])]
      by_cases hk' : e.1 = k'
      · have h2 : (e.1 == k') = true := beq_iff_eq.mpr hk'
        rw [List.find?_cons_of_pos _ (by simp [h2]),
          List.find?_cons_of_pos _ (by simp [h2])]
      · have h2 : (e.1 == k') = false := beq_eq_false_iff_ne.mpr hk'
        rw [List.find?_cons_of_neg _ (by simp [h2]),
          List.find?_cons_of_neg _ (by simp [h2]), ih]

theorem Store.get_del_self (s : Store) (k : Key) : (s.del k).get k = none := by
  unfold Store.del Store.get
  have h : (s.entries.filter (fun e => !(e.1 == k))).find? (fun e => e.1 == k)
      = none := by
    rw [List.find?_eq_none]
    intro e he
    have := (List.mem_filter.mp he).2
    simpa using this
  simp [h]

theorem Store.get_del_ne (s : Store) {k k' : Key} (h : k' ≠ k) :
    (s.del k).get k' = s.get k' := by
  unfold Store.del Store.get
  rw [find?_entry_filter_ne s.entries h]

theorem length_filter_out_key (l : List (Key × Blob)) (k : Key)
    (hnd : (l.map (fun e => e.1)).Nodup) (hk : k ∈ l.map (fun e => e.1)) :
    (l.filter (fun e => !(e.1 == k))).length + 1 = l.length := by
  induction l with
  | nil => cases hk
  | cons e es ih =>
    simp only [List.map_cons, List.nodup_cons] at hnd
    by_cases hek : e.1 = k
    · have h1 : (e.1 == k) = true := beq_iff_eq.mpr hek
      rw [List.filter_cons_of_neg (by simp [h1])]
      have hrest : es.filter (fun e => !(e.1 == k)) = es := by
        rw [List.filter_eq_self]
        intro a ha
        have : a.1 ≠ k := by
          intro hak
          have hmem : e.1 ∈ es.map (fun e => e.1) := by
            rw [hek, ← hak]
            exact List.mem_map.mpr ⟨a, ha, rfl⟩
          exact hnd.1 hmem
        simp [beq_eq_false_iff_ne.mpr this]
      rw [hrest]
      simp
    · have h1 : (e.1 == k) = false := beq_eq_false_iff_ne.mpr hek
      rw [List.filter_cons_of_pos (by simp [h1])]
      have hk' : k ∈ es.map (fun e => e.1) := by
        rcases List.mem_cons.mp hk with h' | h'
        · exact absurd h'.symm hek
        · exact h'
      simp only [List.length_cons]
      rw [← ih hnd.2 hk']

theorem Store.length_del {s : Store} {k : Key} (hnd : s.keys.Nodup)
    (hk : k ∈ s.keys) : (s.del k).entries.length + 1 = s.entries.length := by
  unfold Store.del
  exact length_filter_out_key s.entries k hnd hk

theorem postDupLoop_snd (b : Blob) :
    ∀ (ks : List Key) (c : KV), ∃ n,
      (postDupLoop b c ks).2 = { c with calls := c.calls ++ List.replicate n SCall.get } := by
  intro ks
  induction ks with
  | nil =>
    intro c
    exact ⟨0, by simp [postDupLoop]⟩
  | cons k ks ih =>
    intro c
    obtain ⟨st, se, ge, pe, de, cs⟩ := c
    cases ge
    · by_cases hv : KV.valOf ⟨st, se, false, pe, de, cs⟩ k = b
      · exact ⟨1, by simp [postDupLoop, KV.getOp, KV.logCall, hv]⟩
      · obtain ⟨n, h1⟩ := ih ⟨st, se, false, pe, de, cs ++ [SCall.get]⟩
        refine ⟨n + 1, ?_⟩
        simp only [postDupLoop, KV.getOp, KV.logCall, Bool.false_eq_true,
          if_false, hv]
        rw [h1]
        simp [List.replicate_succ, List.append_assoc]
    · exact ⟨1, by simp [postDupLoop, KV.getOp, KV.logCall]⟩

theorem findKeyLoop_snd (t : Blob) :
    ∀ (ks : List Key) (c : KV), ∃ n,
      (findKeyLoop t c ks).2 = { c with calls := c.calls ++ List.replicate n SCall.get } := by
  intro ks
  induction ks with
  | nil =>
    intro c
    exact ⟨0, by simp [findKeyLoop]⟩
  | cons k ks ih =>
    intro c
    obtain ⟨st, se, ge, pe, de, cs⟩ := c
    cases ge
    · by_cases hv : KV.valOf ⟨st, se, false, pe, de, cs⟩ k = t
      · exact ⟨1, by simp [findKeyLoop, KV.getOp, KV.logCall, hv]⟩
      · obtain ⟨n, h1⟩ := ih ⟨st, se, false, pe, de, cs ++ [SCall.get]⟩
        refine ⟨n + 1, ?_⟩
        simp only [findKeyLoop, KV.getOp, KV.logCall, Bool.false_eq_true,
          if_false, hv]
        rw [h1]
        simp [List.replicate_succ, List.append_assoc]
    · exact ⟨1, by simp [findKeyLoop, KV.getOp, KV.logCall]⟩

theorem findKeyLoop_fst (t : Blob) :
    ∀ (ks : List Key) (c : KV), c.getErr = false →
      (findKeyLoop t c ks).1 = Except.ok (ks.find? (fun k => c.valOf k == t)) := by
  intro ks
  induction ks with
  | nil => intro c _; simp [findKeyLoop]
  | cons k ks ih =>
    intro c hg
    obtain ⟨st, se, ge, pe, de, cs⟩ := c
    cases ge
    · by_cases hv : KV.valOf ⟨st, se, false, pe, de, cs⟩ k = t
      · rw [List.find?_cons_of_pos _ (by simp [hv])]
        simp [findKeyLoop, KV.getOp, KV.logCall, hv]
      · rw [List.find?_cons_of_neg _ (by simp [hv])]
        simp only [findKeyLoop, KV.getOp, KV.logCall, Bool.false_eq_true,
          if_false, hv]
        exact ih ⟨st, se, false, pe, de, cs ++ [SCall.get]⟩ rfl
    · exact absurd hg (by simp)

theorem postDupLoop_conflict (b : Blob) :
    ∀ (ks : List Key) (c : KV), c.getErr = false → (∃ k ∈ ks, c.valOf k = b) →
      (postDupLoop b c ks).1 = some ⟨409, .text "Blob already exists"⟩ := by
  intro ks
  induction ks with
  | nil => intro c _ hex; simp at hex
  | cons k ks ih =>
    intro c hg hex
    obtain ⟨st, se, ge, pe, de, cs⟩ := c
    cases ge
    · by_cases hv : KV.valOf ⟨st, se, false, pe, de, cs⟩ k = b
      · simp [postDupLoop, KV.getOp, KV.logCall, hv]
      · simp only [postDupLoop, KV.getOp, KV.logCall, Bool.false_eq_true,
          if_false, hv]
        obtain ⟨k', hk', hv'⟩ := hex
        rcases List.mem_cons.mp hk' with h | h
        · exact absurd (h ▸ hv') hv
        · exact ih ⟨st, se, false, pe, de, cs ++ [SCall.get]⟩ rfl ⟨k', h, hv'⟩
    · exact absurd hg (by simp)

theorem ofDigitsLE_decDigitsAux :
    ∀ (f n : Nat), n ≤ f → ofDigitsLE (decDigitsAux f n) = n := by
  intro f
  induction f with
  | zero =>
    intro n hn
    have h0 : n = 0 := Nat.le_zero.mp hn
    subst h0
    rfl
  | succ f ih =>
    intro n hn
    cases n with
    | zero => rfl
    | succ m =>
      have hdiv : (m + 1) / 10 ≤ f := by
        have h1 : (m + 1) / 10 < m + 1 := Nat.div_lt_self (Nat.succ_pos m) (by omega)
        omega
      simp only [decDigitsAux, ofDigitsLE]
      rw [ih ((m + 1) / 10) hdiv]
      exact Nat.mod_add_div (m + 1) 10

theorem digitsLE_inj {m n : Nat} (h : digitsLE m = digitsLE n) : m = n := by
  have hm := ofDigitsLE_decDigitsAux m m le_rfl
  have hn := ofDigitsLE_decDigitsAux n n le_rfl
  unfold digitsLE at h
  rw [← hm, ← hn, h]

theorem digitsLE_eq_zero_digit {n : Nat} (h : digitsLE n = [0]) : n = 0 := by
  have hn := ofDigitsLE_decDigitsAux n n le_rfl
  unfold digitsLE at h
  rw [h] at hn
  simpa [ofDigitsLE] using hn.symm

theorem decimalDigits_inj {m n : Nat} (h : decimalDigits m = decimalDigits n) :
    m = n := by
  unfold decimalDigits at h
  by_cases hm : m = 0 <;> by_cases hn : n = 0
  · exact hm.trans hn.symm
  · rw [if_pos hm, if_neg hn] at h
    have : digitsLE n = [0] := by
      have := congrArg List.reverse h
      simpa using this.symm
    exact absurd (digitsLE_eq_zero_digit this) hn
  · rw [if_neg hm, if_pos hn] at h
    have : digitsLE m = [0] := by
      have := congrArg List.reverse h
      simpa using this
    exact absurd (digitsLE_eq_zero_digit this) hm
  · rw [if_neg hm, if_neg hn] at h
    exact digitsLE_inj (List.reverse_injective h)

theorem makeKey_inj : Function.Injective makeKey := by
  intro t u h
  unfold makeKey at h
  have h1 : (decimalDigits t).map (fun d => d + 48) =
      (decimalDigits u).map (fun d => d + 48) := by
    exact List.append_cancel_left h
  have h2 : decimalDigits t = decimalDigits u := by
    have hinj : Function.Injective (fun d : Nat => d + 48) := by
      intro a b hab
      simpa using hab
    exact List.map_injective_iff.mpr hinj h1
  exact decimalDigits_inj h2

theorem handlePOST_store_cases (c : KV) (blob : String) (now : Nat) :
    (handlePOST c blob now).2.store = c.store ∨
    (handlePOST c blob now).2.store = c.store.put (makeKey now) blob := by
  by_cases hb : blob = ""
  · left
    simp [handlePOST, hb]
  · obtain ⟨st, se, ge, pe, de, cs⟩ := c
    cases se
    · obtain ⟨n, hsnd⟩ := postDupLoop_snd blob
        (Store.scan st blobStartKey blobEndKey 100)
        ⟨st, false, ge, pe, de, cs ++ [SCall.scan]⟩
      cases hd : (postDupLoop blob ⟨st, false, ge, pe, de, cs ++ [SCall.scan]⟩
          (Store.scan st blobStartKey blobEndKey 100)).1 with
      | some resp =>
        left
        simp [handlePOST, hb, KV.scanOp, KV.logCall, hd, hsnd]
      | none =>
        cases pe
        · right
          simp [handlePOST, hb, KV.scanOp, KV.logCall, KV.putOp, hd, hsnd]
        · left
          simp [handlePOST, hb, KV.scanOp, KV.logCall, KV.putOp, hd, hsnd]
    · left
      simp [handlePOST, hb, KV.scanOp, KV.logCall]

theorem handlePUT_404_of_none (c : KV) (oldBlob newBlob : String)
    (ho : oldBlob ≠ "") (hn : newBlob ≠ "") (hs : c.scanErr = false)
    (hg : c.getErr = false)
    (hnone : (c.store.scan blobStartKey blobEndKey 100).find?
      (fun k => c.valOf k == oldBlob) = none) :
    (handlePUT c oldBlob newBlob).1 = ⟨404, .text "Blob not found"⟩ := by
  obtain ⟨st, se, ge, pe, de, cs⟩ := c
  replace hs : se = false := hs
  replace hg : ge = false := hg
  subst hs
  subst hg
  have hloop := findKeyLoop_fst oldBlob (Store.scan st blobStartKey blobEndKey 100)
    ⟨st, false, false, pe, de, cs ++ [SCall.scan]⟩ rfl
  have hnone2 : (Store.scan st blobStartKey blobEndKey 100).find?
      (fun k => KV.valOf ⟨st, false, false, pe, de, cs ++ [SCall.scan]⟩ k == oldBlob) =
        none := hnone
  rw [hnone2] at hloop
  simp [handlePUT, ho, hn, KV.scanOp, KV.logCall, hloop]

theorem handleDELETE_404_of_none (c : KV) (blob : String)
    (hb : blob ≠ "") (hs : c.scanErr = false) (hg : c.getErr = false)
    (hnone : (c.store.scan blobStartKey blobEndKey 100).find?
      (fun k => c.valOf k == blob) = none) :
    (handleDELETE c blob).1 = ⟨404, .text "Blob not found"⟩ := by
  obtain ⟨st, se, ge, pe, de, cs⟩ := c
  replace hs : se = false := hs
  replace hg : ge = false := hg
  subst hs
  subst hg
  have hloop := findKeyLoop_fst blob (Store.scan st blobStartKey blobEndKey 100)
    ⟨st, false, false, pe, de, cs ++ [SCall.scan]⟩ rfl
  have hnone2 : (Store.scan st blobStartKey blobEndKey 100).find?
      (fun k => KV.valOf ⟨st, false, false, pe, de, cs ++ [SCall.scan]⟩ k == blob) =
        none := hnone
  rw [hnone2] at hloop
  simp [handleDELETE, hb, KV.scanOp, KV.logCall, hloop]

/-- C5 counterexample: a PUT whose oldBlob matches no stored value but
whose newBlob is empty answers 400 BadRequest, not 404, so the response is
not independent of newBlob. -/
theorem put_empty_newBlob_400 :
    (handlePUT kvTwo "x" "").1 = ⟨400, .text "No new blob provided"⟩ ∧
    (handlePUT kvTwo "x" "").1.status ≠ 404 := by
  decide

/-- C5 (amended): a PUT with non-empty oldBlob and newBlob, a successful
scan and successful fetches, where no stored value within the scanned
window equals oldBlob, answers 404 NotFound whatever non-empty newBlob
holds. -/
theorem put_no_match_404 (c : KV) (oldBlob newBlob : String)
    (ho : oldBlob ≠ "") (hn : newBlob ≠ "") (hs : c.scanErr = false)
    (hg : c.getErr = false)
    (hnone : ∀ k ∈ c.store.scan blobStartKey blobEndKey 100, c.valOf k ≠ oldBlob) :
    (handlePUT c oldBlob newBlob).1 = ⟨404, .text "Blob not found"⟩ := by
  apply handlePUT_404_of_none c oldBlob newBlob ho hn hs hg
  rw [List.find?_eq_none]
  intro k hk
  simpa using hnone k hk

/-- C5 witness: with the two-entry store, updating the absent value x to y
answers 404. -/
theorem put_no_match_404_witness :
    (handlePUT kvTwo "x" "y").1 = ⟨404, .text "Blob not found"⟩ :=
  put_no_match_404 kvTwo "x" "y" (by decide) (by decide) rfl rfl (by decide)

/-- C6: a POST whose non-empty blob equals some stored value within the
scanned window answers 409 Conflict, leaves the stored key-value state
unchanged, and issues no put. -/
theorem post_duplicate_conflict (c : KV) (blob : String) (now : Nat)
    (hb : blob ≠ "") (hs : c.scanErr = false) (hg : c.getErr = false)
    (hex : ∃ k ∈ c.store.scan blobStartKey blobEndKey 100, c.valOf k = blob) :
    (handlePOST c blob now).1 = ⟨409, .text "Blob already exists"⟩ ∧
    (handlePOST c blob now).2.store = c.store ∧
    (handlePOST c blob now).2.calls.count SCall.put = c.calls.count SCall.put := by
  obtain ⟨st, se, ge, pe, de, cs⟩ := c
  replace hs : se = false := hs
  replace hg : ge = false := hg
  subst hs
  subst hg
  have h409 := postDupLoop_conflict blob (Store.scan st blobStartKey blobEndKey 100)
    ⟨st, false, false, pe, de, cs ++ [SCall.scan]⟩ rfl hex
  obtain ⟨n, hsnd⟩ := postDupLoop_snd blob (Store.scan st blobStartKey blobEndKey 100)
    ⟨st, false, false, pe, de, cs ++ [SCall.scan]⟩
  refine ⟨?_, ?_, ?_⟩ <;>
    simp [handlePOST, hb, KV.scanOp, KV.logCall, h409, hsnd, List.count_append,
      List.count_replicate]

/-- C6 witness: posting the already stored value a against the two-entry
store answers 409 and changes nothing. -/
theorem post_duplicate_conflict_witness :
    (handlePOST kvTwo "a" 7).1 = ⟨409, .text "Blob already exists"⟩ ∧
    (handlePOST kvTwo "a" 7).2.store = kvTwo.store ∧
    (handlePOST kvTwo "a" 7).2.calls.count SCall.put = kvTwo.calls.count SCall.put :=
  post_duplicate_conflict kvTwo "a" 7 (by decide) rfl rfl
    ⟨key1, by decide, by decide⟩

/-- C7: a DELETE whose non-empty blob equals the value of some key within
the scanned window, with a successful scan, successful fetches and a
successful delete, removes exactly the first matching key in scan order:
that key is gone, every other key reads as before, the entry count drops
by exactly one, and the response is 200 with the deletion message. -/
theorem delete_removes_first_match (c : KV) (blob : String) (k0 : Key)
    (hb : blob ≠ "") (hs : c.scanErr = false) (hg : c.getErr = false)
    (hd : c.delErr = false) (hnd : c.store.keys.Nodup)
    (hfind : (c.store.scan blobStartKey blobEndKey 100).find?
      (fun k => c.valOf k == blob) = some k0) :
    (handleDELETE c blob).1 = ⟨200, .jsonMessage "Blob deleted successfully"⟩ ∧
    (handleDELETE c blob).2.store.get k0 = none ∧
    (∀ k, k ≠ k0 → (handleDELETE c blob).2.store.get k = c.store.get k) ∧
    (handleDELETE c blob).2.store.entries.length + 1 = c.store.entries.length := by
  obtain ⟨st, se, ge, pe, de, cs⟩ := c
  replace hs : se = false := hs
  replace hg : ge = false := hg
  replace hd : de = false := hd
  subst hs
  subst hg
  subst hd
  have hloop := findKeyLoop_fst blob (Store.scan st blobStartKey blobEndKey 100)
    ⟨st, false, false, pe, false, cs ++ [SCall.scan]⟩ rfl
  have hfind2 : (Store.scan st blobStartKey blobEndKey 100).find?
      (fun k => KV.valOf ⟨st, false, false, pe, false, cs ++ [SCall.scan]⟩ k == blob) =
        some k0 := hfind
  rw [hfind2] at hloop
  obtain ⟨n, hsnd⟩ := findKeyLoop_snd blob (Store.scan st blobStartKey blobEndKey 100)
    ⟨st, false, false, pe, false, cs ++ [SCall.scan]⟩
  have hk0mem : k0 ∈ Store.keys st :=
    scan_subset_keys (List.mem_of_find?_eq_some hfind)
  refine ⟨?_, ?_, ?_, ?_⟩
  · simp [handleDELETE, hb, KV.scanOp, KV.logCall, hloop, hsnd, KV.delOp]
  · simp [handleDELETE, hb, KV.scanOp, KV.logCall, hloop, hsnd, KV.delOp,
      Store.get_del_self]
  · intro k hk
    simp [handleDELETE, hb, KV.scanOp, KV.logCall, hloop, hsnd, KV.delOp,
      Store.get_del_ne st hk]
  · have hlen : (st.del k0).entries.length + 1 = st.entries.length :=
      Store.length_del hnd hk0mem
    simp [handleDELETE, hb, KV.scanOp, KV.logCall, hloop, hsnd, KV.delOp]
    omega

/-- C7 witness: deleting the stored value b from the two-entry store
removes exactly the key blob:2 and leaves blob:1 untouched. -/
theorem delete_removes_first_match_witness :
    (handleDELETE kvTwo "b").1 = ⟨200, .jsonMessage "Blob deleted successfully"⟩ ∧
    (handleDELETE kvTwo "b").2.store.get key2 = none ∧
    (handleDELETE kvTwo "b").2.store.get key1 = kvTwo.store.get key1 ∧
    (handleDELETE kvTwo "b").2.store.entries.length + 1 =
      kvTwo.store.entries.length := by
  obtain ⟨h1, h2, h3, h4⟩ := delete_removes_first_match kvTwo "b" key2
    (by decide) rfl rfl rfl (by decide) (by decide)
  exact ⟨h1, h2, h3 key1 (by decide), h4⟩

/-- C8: under a successful scan and successful fetches, the find-by-value
step of the update and delete handlers selects exactly the key the spec
describes: the first key, in scan order over the range from blob: to
blob:~ with limit 100, whose value is byte-equal to the target; and when
that spec-level locator yields nothing, both handlers answer 404. -/
theorem find_by_value_refines_spec (c : KV) (hs : c.scanErr = false)
    (hg : c.getErr = false) :
    (∀ target : Blob,
      (findKeyLoop target c (c.store.scan blobStartKey blobEndKey 100)).1 =
        Except.ok (findKeyByValueSpec c target)) ∧
    (∀ oldBlob newBlob : String, oldBlob ≠ "" → newBlob ≠ "" →
      findKeyByValueSpec c oldBlob = none →
      (handlePUT c oldBlob newBlob).1 = ⟨404, .text "Blob not found"⟩) ∧
    (∀ blob : String, blob ≠ "" → findKeyByValueSpec c blob = none →
      (handleDELETE c blob).1 = ⟨404, .text "Blob not found"⟩) := by
  refine ⟨?_, ?_, ?_⟩
  · intro target
    rw [findKeyLoop_fst target _ c hg]
    rfl
  · intro oldBlob newBlob ho hn hnone
    exact handlePUT_404_of_none c oldBlob newBlob ho hn hs hg hnone
  · intro blob hb hnone
    exact handleDELETE_404_of_none c blob hb hs hg hnone

/-- C8 witness: on the two-entry store the loop selects blob:1 for target
a, and updating or deleting the absent value x answers 404. -/
theorem find_by_value_refines_spec_witness :
    (findKeyLoop "a" kvTwo (kvTwo.store.scan blobStartKey blobEndKey 100)).1 =
      Except.ok (findKeyByValueSpec kvTwo "a") ∧
    (handlePUT kvTwo "x" "y").1.status = 404 ∧
    (handleDELETE kvTwo "x").1.status = 404 := by
  obtain ⟨h1, h2, h3⟩ := find_by_value_refines_spec kvTwo rfl rfl
  refine ⟨h1 "a", ?_, ?_⟩
  · rw [h2 "x" "y" (by decide) (by decide) (by decide)]
  · rw [h3 "x" (by decide) (by decide)]

/-- C3: a request arriving when the pool has no available handle, or has
capacity zero, is answered 500 Internal server error, the whole system
state is unchanged (so no handle is leaked or added), and the storage-call
trace is untouched (no storage call is made). -/
theorem pool_exhaustion_500_no_leak (st : SystemState) (r : Request)
    (h : st.pool.available = 0 ∨ st.pool.capacity = 0) :
    (handleRequest st r).1 = ⟨500, .text "Internal server error"⟩ ∧
    (handleRequest st r).2 = st ∧
    (handleRequest st r).2.kv.calls = st.kv.calls := by
  obtain ⟨⟨cap, avail⟩, kv⟩ := st
  rcases h with h | h
  · replace h : avail = 0 := h
    subst h
    refine ⟨?_, ?_, ?_⟩ <;> simp [handleRequest, getClientFromPool]
  · replace h : cap = 0 := h
    subst h
    refine ⟨?_, ?_, ?_⟩ <;> simp [handleRequest, getClientFromPool]

/-- C3 witness: with ten configured handles but none available, a GET is
answered 500 with nothing changed. -/
theorem pool_exhaustion_500_no_leak_witness :
    (handleRequest ⟨⟨10, 0⟩, kvEmpty⟩ reqGET).1 =
      ⟨500, .text "Internal server error"⟩ ∧
    (handleRequest ⟨⟨10, 0⟩, kvEmpty⟩ reqGET).2 = ⟨⟨10, 0⟩, kvEmpty⟩ :=
  ⟨(pool_exhaustion_500_no_leak ⟨⟨10, 0⟩, kvEmpty⟩ reqGET (Or.inl rfl)).1,
    (pool_exhaustion_500_no_leak ⟨⟨10, 0⟩, kvEmpty⟩ reqGET (Or.inl rfl)).2.1⟩

/-- C9 counterexample: a PATCH request arriving at the reachable state in
which ten background-monitor ticks have emptied the pool is answered 500,
not 405, although its method is none of GET, POST, PUT, DELETE. -/
theorem unsupported_method_exhausted_pool_500 :
    reqPatch.method = "PATCH" ∧
    drainedState.pool.available = 0 ∧
    (handleRequest drainedState reqPatch).1.status = 500 ∧
    (handleRequest drainedState reqPatch).1.status ≠ 405 := by
  decide

/-- C9 (amended): a request whose method is none of GET, POST, PUT,
DELETE is answered 405 Invalid request method with the system state (pool
and storage-call trace included) unchanged, provided a handle is
available; when the pool is exhausted the answer is 500 instead, likewise
with no storage call. -/
theorem unsupported_method_405 (st : SystemState) (r : Request)
    (h1 : r.method ≠ "GET") (h2 : r.method ≠ "POST") (h3 : r.method ≠ "DELETE")
    (h4 : r.method ≠ "PUT") :
    ((0 < st.pool.available ∧ 0 < st.pool.capacity) →
      (handleRequest st r).1 = ⟨405, .text "Invalid request method"⟩ ∧
      (handleRequest st r).2 = st) ∧
    ((st.pool.available = 0 ∨ st.pool.capacity = 0) →
      (handleRequest st r).1 = ⟨500, .text "Internal server error"⟩ ∧
      (handleRequest st r).2 = st) := by
  obtain ⟨⟨cap, avail⟩, kv⟩ := st
  constructor
  · rintro ⟨hav, hcap⟩
    replace hav : 0 < avail := hav
    replace hcap : 0 < cap := hcap
    constructor
    · simp [handleRequest, getClientFromPool, hav, hcap, h1, h2, h3, h4]
    · simp [handleRequest, getClientFromPool, hav, hcap, h1, h2, h3, h4,
        Nat.sub_add_cancel hav]
  · rintro (h | h)
    · replace h : avail = 0 := h
      subst h
      constructor <;> simp [handleRequest, getClientFromPool]
    · replace h : cap = 0 := h
      subst h
      constructor <;> simp [handleRequest, getClientFromPool]

/-- C9 witness: a PATCH request at the freshly set-up pool is answered 405
with the state unchanged. -/
theorem unsupported_method_405_witness :
    (handleRequest (setupClientPool kvEmpty) reqPatch).1 =
      ⟨405, .text "Invalid request method"⟩ ∧
    (handleRequest (setupClientPool kvEmpty) reqPatch).2 =
      setupClientPool kvEmpty :=
  (unsupported_method_405 (setupClientPool kvEmpty) reqPatch
      (by decide) (by decide) (by decide) (by decide)).1
    ⟨by decide, by decide⟩

/-- C10: in the random GET handler with a successful scan, an empty scan
answers 404 before any indexing, and a non-empty scan is answered with the
value of keys[rnd mod len], an index strictly inside the bounds of the
scanned key list, so the returned blob is the value of a key inside the
scan window. -/
theorem random_read_in_window (c : KV) (rnd : Nat) (keys : List Key)
    (hk : keys = c.store.scan blobStartKey blobEndKey 100)
    (hs : c.scanErr = false) (hg : c.getErr = false) :
    (keys = [] → (handleGETRandom c rnd).1 = ⟨404, .text "No blobs found"⟩) ∧
    (keys ≠ [] →
      rnd % keys.length < keys.length ∧
      keys.getD (rnd % keys.length) [] ∈ keys ∧
      (handleGETRandom c rnd).1 =
        ⟨200, .jsonBlob (c.valOf (keys.getD (rnd % keys.length) []))⟩) := by
  obtain ⟨st, se, ge, pe, de, cs⟩ := c
  replace hs : se = false := hs
  replace hg : ge = false := hg
  subst hs
  subst hg
  replace hk : keys = Store.scan st blobStartKey blobEndKey 100 := hk
  subst hk
  constructor
  · intro hnil
    simp [handleGETRandom, KV.scanOp, KV.logCall, hnil]
  · intro hne
    have hlen : 0 < (Store.scan st blobStartKey blobEndKey 100).length :=
      List.length_pos.mpr hne
    have hmod : rnd % (Store.scan st blobStartKey blobEndKey 100).length <
        (Store.scan st blobStartKey blobEndKey 100).length := Nat.mod_lt rnd hlen
    have hlz : ¬ ((Store.scan st blobStartKey blobEndKey 100).length = 0) := by
      omega
    refine ⟨hmod, ?_, ?_⟩
    · rw [List.getD_eq_getElem _ _ hmod]
      exact List.getElem_mem _
    · rw [List.getD_eq_getElem _ _ hmod]
      simp [handleGETRandom, KV.scanOp, KV.logCall, KV.getOp, hlz,
        List.get_eq_getElem]
      rfl

/-- C10 witness: with the two-entry store and random reading 7 the index
7 mod 2 is in bounds and the response carries the value of blob:2. -/
theorem random_read_in_window_witness :
    7 % ([key1, key2] : List Key).length < ([key1, key2] : List Key).length ∧
    ([key1, key2] : List Key).getD (7 % ([key1, key2] : List Key).length) [] ∈
      ([key1, key2] : List Key) ∧
    (handleGETRandom kvTwo 7).1 = ⟨200, .jsonBlob (kvTwo.valOf
      (([key1, key2] : List Key).getD (7 % ([key1, key2] : List Key).length) []))⟩ :=
  (random_read_in_window kvTwo 7 [key1, key2] (by decide) rfl rfl).2 (by decide)

/-- C1: the count handler writes status 200 unconditionally — also when
the Scan call fails, in which case the body is the JSON count -1 rather
than the InternalError 500 the specification prescribes. -/
theorem count_scan_failure_returns_200 :
    (∀ c : KV, (handleGETCount c).1.status = 200) ∧
    (handleGETCount kvScanFail).1 = ⟨200, .jsonCount (-1)⟩ := by
  constructor
  · intro c
    rfl
  · decide

/-- C2: one completed background-monitor tick from the freshly set-up pool
of ClientPoolSize handles leaves only ClientPoolSize - 1 handles in
circulation: the tick receives a handle from the pool channel and never
sends it back, so the claimed constant-circulation invariant fails. -/
theorem monitor_tick_leaks_handle :
    (setupClientPool kvEmpty).pool.available = ClientPoolSize ∧
    (monitorTick (setupClientPool kvEmpty)).pool.available + 1 = ClientPoolSize := by
  decide

/-- C4 counterexample: two creates within the same nanosecond (clock
reading 5 twice) both answer 200, yet the store afterwards holds a single
entry — the two synthesized keys coincide, so create-generated keys are
neither unique nor strictly increasing. -/
theorem same_nanosecond_creates_collide :
    (handlePOST kvEmpty "a" 5).1.status = 200 ∧
    (handlePOST (handlePOST kvEmpty "a" 5).2 "b" 5).1.status = 200 ∧
    ((handlePOST (handlePOST kvEmpty "a" 5).2 "b" 5).2).store.entries.length = 1 := by
  decide

/-- C4 (amended): every key synthesized by the create operation is the
bytes of blob: followed by the ASCII decimal rendering of the clock
reading, and any successful create writes exactly that key; keys from
distinct clock readings are distinct, so keys are unique whenever the
nanosecond readings are pairwise distinct — which the code itself does not
ensure. -/
theorem create_key_form_unique_per_clock :
    (∀ t : Nat, makeKey t = blobStartKey ++ (decimalDigits t).map (fun d => d + 48)) ∧
    (∀ t u : Nat, t ≠ u → makeKey t ≠ makeKey u) ∧
    (∀ (c : KV) (blob : String) (now : Nat),
      (handlePOST c blob now).2.store = c.store ∨
      (handlePOST c blob now).2.store = c.store.put (makeKey now) blob) := by
  refine ⟨fun _ => rfl, ?_, handlePOST_store_cases⟩
  intro t u htu heq
  exact htu (makeKey_inj heq)

/-- C4 witness: the keys synthesized at clock readings 1 and 2 differ. -/
theorem create_key_form_unique_per_clock_witness :
    makeKey 1 ≠ makeKey 2 :=
  create_key_form_unique_per_clock.2.1 1 2 (by decide)

end TiKvApi
